import Mathlib

/-!
# Peer telemetry exchange subsystem — verification development

Shallow embedding of the peer-telemetry core of the repository
(`CybSDK_Python_DataDemo/test.py`): the wire codec (`struct.pack`/`unpack`
of 9 doubles and 19 floats), the telemetry sender `tl_sender`, and the
receiver loop `tl_receiver` with its ad-hoc peer registry held in the
module globals `num_cli`, `neworexi`, `cli_vehicle`.

Field values of the packed records are modelled by their bit patterns:
a double is a natural number below `2^64` (8 bytes), a float a natural
number below `2^32` (4 bytes).  `struct.pack` on x86 writes these
patterns little-endian with no padding; encode/decode below operate on
the byte lists directly.
-/

namespace PeerTelemetry

/-- Little-endian serialization of one `k`-byte word, as `struct.pack`
lays out a single fixed-width field. -/
def bytesLE : Nat → Nat → List Nat
  | 0, _ => []
  | k + 1, w => w % 256 :: bytesLE k (w / 256)

/-- Reassemble a little-endian byte list into the word it encodes. -/
def wordLE : List Nat → Nat
  | [] => 0
  | b :: bs => b + 256 * wordLE bs

/-- `struct.pack(fmt * n, *ws)` for a homogeneous format of width
`width`: the concatenation of the fields' little-endian bytes. -/
def packWords (width : Nat) (ws : List Nat) : List Nat :=
  (ws.map (bytesLE width)).flatten

/-- `struct.unpack(fmt * n, bs)` for a homogeneous format of width
`width`: succeeds exactly when `bs` splits into `n` chunks of `width`
bytes; any other length raises `struct.error`, modelled as `none`. -/
def unpackWords (width : Nat) : Nat → List Nat → Option (List Nat)
  | 0, bs => if bs.isEmpty then some [] else none
  | n + 1, bs =>
    if bs.length < width then none
    else (unpackWords width n (bs.drop width)).map fun ws => wordLE (bs.take width) :: ws

theorem length_bytesLE (k w : Nat) : (bytesLE k w).length = k := by
  induction k generalizing w with
  | zero => rfl
  | succ k ih => simp [bytesLE, ih]

theorem wordLE_bytesLE (k w : Nat) (h : w < 256 ^ k) : wordLE (bytesLE k w) = w := by
  induction k generalizing w with
  | zero => simp at h; simp [h, bytesLE, wordLE]
  | succ k ih =>
    have hdiv : w / 256 < 256 ^ k := by
      rw [Nat.div_lt_iff_lt_mul (by norm_num)]
      calc w < 256 ^ (k + 1) := h
        _ = 256 ^ k * 256 := by ring
    simp [bytesLE, wordLE, ih _ hdiv, Nat.mod_add_div]

theorem packWords_cons (width w : Nat) (ws : List Nat) :
    packWords width (w :: ws) = bytesLE width w ++ packWords width ws := by
  simp [packWords]

theorem length_packWords (width : Nat) (ws : List Nat) :
    (packWords width ws).length = width * ws.length := by
  induction ws with
  | nil => simp [packWords]
  | cons w ws ih =>
    rw [packWords_cons, List.length_append, length_bytesLE, ih, List.length_cons]
    ring

theorem unpackWords_packWords (width : Nat) (ws : List Nat)
    (h : ∀ w ∈ ws, w < 256 ^ width) :
    unpackWords width ws.length (packWords width ws) = some ws := by
  induction ws with
  | nil => rfl
  | cons w ws ih =>
    have hlen : (bytesLE width w).length = width := length_bytesLE width w
    have hw : w < 256 ^ width := h w (List.mem_cons_self w ws)
    have hwtail : ∀ x ∈ ws, x < 256 ^ width := fun x hx => h x (List.mem_cons_of_mem w hx)
    have hgelen : ¬ (bytesLE width w ++ packWords width ws).length < width := by
      rw [List.length_append, hlen]; omega
    have htake : (bytesLE width w ++ packWords width ws).take width = bytesLE width w := by
      rw [List.take_append_of_le_length (by omega)]
      exact List.take_of_length_le (by omega)
    have hdrop : (bytesLE width w ++ packWords width ws).drop width = packWords width ws := by
      rw [List.drop_append_of_le_length (by omega), List.drop_of_length_le (by omega),
        List.nil_append]
    rw [List.length_cons, packWords_cons, unpackWords, if_neg hgelen, htake, hdrop,
      ih hwtail, wordLE_bytesLE width w hw]
    rfl

theorem unpackWords_length (width n : Nat) (bs ws : List Nat)
    (h : unpackWords width n bs = some ws) : bs.length = width * n := by
  induction n generalizing bs ws with
  | zero =>
    simp only [unpackWords] at h
    by_cases he : bs.isEmpty
    · simp [List.isEmpty_iff.mp he]
    · simp [he] at h
  | succ n ih =>
    simp only [unpackWords] at h
    by_cases hlt : bs.length < width
    · simp [hlt] at h
    · rw [if_neg hlt] at h
      cases hrec : unpackWords width n (bs.drop width) with
      | none => rw [hrec] at h; simp at h
      | some ws' =>
        have := ih (bs.drop width) ws' hrec
        have hdl : (bs.drop width).length = bs.length - width := List.length_drop width bs
        have : bs.length - width = width * n := by omega
        have hmul : width * (n + 1) = width + width * n := by ring
        omega

/-- The telemetry record `tl_sender` packs as 9 doubles, in the order of
the `carla_tl_double` array; field names follow the receiver-side `cars`
dataclass that the 9-tuple is unpacked into. -/
structure TelemetryRecord where
  cID : Nat
  cNO : Nat
  cTOT : Nat
  cPX : Nat
  cPY : Nat
  cPZ : Nat
  cRX : Nat
  cRY : Nat
  cRZ : Nat
  deriving DecidableEq

/-- The 9 double-precision bit patterns, in wire order. -/
def TelemetryRecord.words (r : TelemetryRecord) : List Nat :=
  [r.cID, r.cNO, r.cTOT, r.cPX, r.cPY, r.cPZ, r.cRX, r.cRY, r.cRZ]

/-- Every field is a well-formed 64-bit (double) pattern. -/
def TelemetryRecord.Valid (r : TelemetryRecord) : Prop :=
  r.cID < 2 ^ 64 ∧ r.cNO < 2 ^ 64 ∧ r.cTOT < 2 ^ 64 ∧ r.cPX < 2 ^ 64 ∧
  r.cPY < 2 ^ 64 ∧ r.cPZ < 2 ^ 64 ∧ r.cRX < 2 ^ 64 ∧ r.cRY < 2 ^ 64 ∧ r.cRZ < 2 ^ 64

instance (r : TelemetryRecord) : Decidable r.Valid := by
  unfold TelemetryRecord.Valid; infer_instance

/-- `struct.pack('d' * 9, *carla_tl_double)` in `tl_sender`. -/
def encodeTelemetry (r : TelemetryRecord) : List Nat :=
  packWords 8 r.words

/-- `struct.unpack('d' * 9, data)` in `tl_receiver`, with the 9-tuple
assignment into the `cars` fields. -/
def decodeTelemetry (bs : List Nat) : Option TelemetryRecord :=
  match unpackWords 8 9 bs with
  | some [a, b, c, d, e, f, g, h, i] => some ⟨a, b, c, d, e, f, g, h, i⟩
  | _ => none

/-- The motion record `mb_sender` packs as 19 floats, in the order of the
`carla_vd_floats` array; field names follow the `motionSim_carla` class. -/
structure MotionRecord where
  posX : Nat
  posY : Nat
  posZ : Nat
  velX : Nat
  velY : Nat
  velZ : Nat
  accX : Nat
  accY : Nat
  accZ : Nat
  rollPos : Nat
  pitchPos : Nat
  yawPos : Nat
  rollRate : Nat
  pitchRate : Nat
  yawRate : Nat
  rollAcc : Nat
  pitchAcc : Nat
  yawAcc : Nat
  collSens : Nat
  deriving DecidableEq

/-- The 19 single-precision bit patterns, in wire order. -/
def MotionRecord.words (m : MotionRecord) : List Nat :=
  [m.posX, m.posY, m.posZ, m.velX, m.velY, m.velZ, m.accX, m.accY, m.accZ,
   m.rollPos, m.pitchPos, m.yawPos, m.rollRate, m.pitchRate, m.yawRate,
   m.rollAcc, m.pitchAcc, m.yawAcc, m.collSens]

/-- Every field is a well-formed 32-bit (float) pattern. -/
def MotionRecord.Valid (m : MotionRecord) : Prop :=
  ∀ w ∈ m.words, w < 2 ^ 32

instance (m : MotionRecord) : Decidable m.Valid := by
  unfold MotionRecord.Valid; infer_instance

/-- `struct.pack('f' * 19, *carla_vd_floats)` in `mb_sender`. -/
def encodeMotion (m : MotionRecord) : List Nat :=
  packWords 4 m.words

/-- Fixed-layout decode of a motion datagram: 19 floats. -/
def decodeMotion (bs : List Nat) : Option MotionRecord :=
  match unpackWords 4 19 bs with
  | some [a1, a2, a3, a4, a5, a6, a7, a8, a9, a10, a11, a12, a13, a14, a15, a16, a17, a18, a19] =>
    some ⟨a1, a2, a3, a4, a5, a6, a7, a8, a9, a10, a11, a12, a13, a14, a15, a16, a17, a18, a19⟩
  | _ => none

/-! ## Telemetry sender (`tl_sender`) -/

/-- `float(now.minute)*6e7 + float(now.second)*1e6 + float(now.microsecond)`
in `tl_sender` (and again in `tl_receiver`): the send timestamp in
microseconds within the current hour.  The three clock fields are exact
small integers, so the double-precision arithmetic is exact and a `Nat`
computation models it faithfully. -/
def b_total (minute second microsecond : Nat) : Nat :=
  minute * 60000000 + second * 1000000 + microsecond

/-- The per-iteration inputs `tl_sender` reads: the timestamp value and
the `motionSim_carla` pose fields, as double bit patterns. -/
structure TlEnv where
  tstamp : Nat
  posX : Nat
  posY : Nat
  posZ : Nat
  rollPos : Nat
  pitchPos : Nat
  yawPos : Nat
  deriving DecidableEq

/-- The `carla_tl_double` array built in one `tl_sender` iteration:
`[GRP_ID, tls_cnt, b_total, posX, posY, posZ, rollPos, pitchPos, yawPos]`. -/
def mkTelemetry (grpId cnt : Nat) (env : TlEnv) : TelemetryRecord :=
  ⟨grpId, cnt, env.tstamp, env.posX, env.posY, env.posZ, env.rollPos, env.pitchPos, env.yawPos⟩

/-- `n` consecutive `tl_sender` iterations starting from counter value
`cnt`: each iteration packs the record with the current `tls_cnt`, then
executes `tls_cnt += 1`.  `env` supplies the clock/pose read at each
counter value. -/
def tlSenderRun (grpId : Nat) (env : Nat → TlEnv) : Nat → Nat → List TelemetryRecord
  | _, 0 => []
  | cnt, n + 1 => mkTelemetry grpId cnt (env cnt) :: tlSenderRun grpId env (cnt + 1) n

/-! ## Receiver state (`tl_receiver` and the module globals) -/

/-- The module-level globals the telemetry threads share, as initialized
at the top of the file and mutated by `tl_sender`/`tl_receiver`.
`neworexi` holds the identifier registered in each slot, `cli_vehicle`
the spawned proxy handle (`0` = the initial int, nonzero = an actor from
`try_spawn_actor`), `lastTrans` the pose last pushed to each slot's proxy
via `set_transform`.  `spawns` counts `try_spawn_actor` calls and
`selfCnt` the receiver's thread-local `cnt` statistic for self packets;
the randomly chosen spawn point stored in `spawn[...]` is abstracted
away (no property depends on its value). -/
structure SharedState where
  tlr_socklen : Nat
  tlr_double : Nat
  num_cli : Nat
  neworexi : List Nat
  cli_vehicle : List Nat
  lastTrans : List (Option (List Nat))
  spawns : Nat
  selfCnt : Nat
  deriving DecidableEq

/-- The initial values of the globals: `tlr_socklen = 0`, `tlr_double = 0`,
`num_cli = 0`, and the five 10-element arrays filled with int `0`. -/
def initState : SharedState :=
  { tlr_socklen := 0
    tlr_double := 0
    num_cli := 0
    neworexi := List.replicate 10 0
    cli_vehicle := List.replicate 10 0
    lastTrans := List.replicate 10 none
    spawns := 0
    selfCnt := 0 }

/-- One `tl_sender` send also publishes the packet length into the
globals the receiver reads: `tlr_socklen = len(packed_data_tl)` and
`tlr_double = len(carla_tl_double)`.  Returns the updated globals and
the datagram put on the wire. -/
def senderPublish (grpId cnt : Nat) (env : TlEnv) (s : SharedState) :
    SharedState × List Nat :=
  let pkt := encodeTelemetry (mkTelemetry grpId cnt env)
  ({ s with tlr_socklen := pkt.length, tlr_double := (mkTelemetry grpId cnt env).words.length }, pkt)

/-- Python exceptions that can escape the receiver's `try` block: a
`struct.error`/`ValueError` from `struct.unpack` or the tuple
assignment, and an `IndexError` from a list write past the end. -/
inductive PyErr where
  | structError
  | indexError
  deriving DecidableEq

/-- Outcome of one receiver loop iteration: proceed to the next
iteration with updated globals, or an exception not caught by the
`except` clauses escaping the loop (the thread dies; the globals keep
the value they had when the exception was raised). -/
inductive StepResult where
  | next (s : SharedState)
  | crash (e : PyErr) (s : SharedState)
  deriving DecidableEq

/-- Python list element assignment `l[i] = a`: in range updates, out of
range raises `IndexError` (a Python list does not grow on assignment). -/
def setAt {α : Type} (l : List α) (i : Nat) (a : α) : Option (List α) :=
  if i < l.length then some (l.set i a) else none

/-- The receiver's linear scan `for i in range(num_cli): if neworexi[i] ==
cars.cID: ...`, returning the first matching index. -/
def firstIdx (neworexi : List Nat) (num_cli cID : Nat) : Option Nat :=
  (List.range num_cli).find? fun i => neworexi.getD i 0 == cID

/-- The slot-resolution block of `tl_receiver` (the `num_cli == 0` branch
and the scan/append branch): returns the updated globals, the slot index
`cli_ind`, and the `newspawn` flag; raises `IndexError` when the
`neworexi[num_cli] = cars.cID` write is out of bounds. -/
def resolve (s : SharedState) (cID : Nat) : Except PyErr (SharedState × Nat × Bool) :=
  if s.num_cli = 0 then
    match setAt s.neworexi s.num_cli cID with
    | none => .error .indexError
    | some ne => .ok ({ s with neworexi := ne, num_cli := s.num_cli + 1 }, s.num_cli, true)
  else
    match firstIdx s.neworexi s.num_cli cID with
    | some i => .ok (s, i, false)
    | none =>
      match setAt s.neworexi s.num_cli cID with
      | none => .error .indexError
      | some ne => .ok ({ s with neworexi := ne, num_cli := s.num_cli + 1 }, s.num_cli, true)

/-- The `newspawn == 1` branch: `cli_vehicle[num_cli-1] =
sim_world.try_spawn_actor(...)`.  The actor handle is modelled by the
nonzero token `1`; `spawns` counts the spawn requests. -/
def spawnProxy (s : SharedState) : StepResult :=
  match setAt s.cli_vehicle (s.num_cli - 1) 1 with
  | none => .crash .indexError s
  | some cv => .next { s with cli_vehicle := cv, spawns := s.spawns + 1 }

/-- `cli_vehicle[cli_ind].set_transform(cli_transf)`: push the received
pose to slot `cli_ind`'s proxy. -/
def applyTransform (s : SharedState) (i : Nat) (pose : List Nat) : StepResult :=
  match setAt s.lastTrans i (some pose) with
  | none => .crash .indexError s
  | some lt => .next { s with lastTrans := lt }

/-- Sequencing inside the `try` block: a raised exception skips the rest
of the body. -/
def StepResult.andThen (r : StepResult) (f : SharedState → StepResult) : StepResult :=
  match r with
  | .next s => f s
  | .crash e s => .crash e s

/-- The body of the `try` block for one received datagram `bs`.
`recvfrom(tlr_socklen)` truncates a longer datagram to `tlr_socklen`
bytes; `struct.unpack('d' * tlr_double, data)` then raises unless the
data is exactly `8 * tlr_double` bytes, and the 9-name tuple assignment
raises unless it produced 9 values.  A packet with the local `GRP_ID`
only updates the thread's diagnostic statistics; any other identifier is
resolved, spawned if new, and its transform applied. -/
def applyDatagram (grpId : Nat) (s : SharedState) (bs : List Nat) : StepResult :=
  match unpackWords 8 s.tlr_double (bs.take s.tlr_socklen) with
  | none => .crash .structError s
  | some ws =>
    match ws with
    | [cID, _cNO, _cTOT, cPX, cPY, cPZ, cRX, cRY, cRZ] =>
      if cID = grpId then
        .next { s with selfCnt := s.selfCnt + 1 }
      else
        match resolve s cID with
        | .error e => .crash e s
        | .ok (s1, cli_ind, newspawn) =>
          (if newspawn then spawnProxy s1 else .next s1).andThen fun s2 =>
            applyTransform s2 cli_ind [cPX, cPY, cPZ, cRX, cRY, cRZ]
    | _ => .crash .structError s

/-- What one `recvfrom` attempt can yield: a datagram, the
`EAGAIN`/`EWOULDBLOCK` socket error, another socket error (with its
errno), or `socket.timeout`. -/
inductive RecvEvent where
  | datagram (bs : List Nat)
  | wouldBlock
  | sockError (errno : Nat)
  | timeout
  deriving DecidableEq

def EAGAIN : Nat := 11
def EWOULDBLOCK : Nat := 11

/-- One iteration of the `while sim_Running` loop in `tl_receiver`.  The
body runs only when `tlr_socklen != 0`.  The `except socket.error`
clause executes `continue` for `EAGAIN`/`EWOULDBLOCK`; for every other
errno the `if` has no `else`, so the except block simply ends and the
loop also proceeds to its next iteration.  `socket.timeout` prints a
message and likewise falls through to the next iteration. -/
def recvStep (grpId : Nat) (s : SharedState) (ev : RecvEvent) : StepResult :=
  if s.tlr_socklen = 0 then .next s
  else
    match ev with
    | .datagram bs => applyDatagram grpId s bs
    | .wouldBlock => .next s
    | .sockError errno =>
      if errno = EAGAIN ∨ errno = EWOULDBLOCK then .next s
      else .next s
    | .timeout => .next s

/-- Run the receiver loop over a list of receive events, stopping when
an uncaught exception escapes the loop. -/
def recvRun (grpId : Nat) (s : SharedState) : List RecvEvent → StepResult
  | [] => .next s
  | ev :: evs =>
    match recvStep grpId s ev with
    | .next s' => recvRun grpId s' evs
    | .crash e s' => .crash e s'

/-! ## Claim theorems -/

theorem words_length_telemetry (r : TelemetryRecord) : r.words.length = 9 := rfl

theorem words_length_motion (m : MotionRecord) : m.words.length = 19 := rfl

theorem unpack_encodeTelemetry (r : TelemetryRecord) (hr : r.Valid) :
    unpackWords 8 9 (encodeTelemetry r) = some r.words := by
  have hb : ∀ w ∈ r.words, w < 256 ^ 8 := by
    have e : (256 : Nat) ^ 8 = 2 ^ 64 := by norm_num
    intro w hw
    rw [e]
    obtain ⟨h1, h2, h3, h4, h5, h6, h7, h8, h9⟩ := hr
    simp only [TelemetryRecord.words, List.mem_cons, List.not_mem_nil, or_false] at hw
    rcases hw with h | h | h | h | h | h | h | h | h <;> subst h <;> assumption
  have := unpackWords_packWords 8 r.words hb
  rwa [words_length_telemetry] at this

theorem unpack_encodeMotion (m : MotionRecord) (hm : m.Valid) :
    unpackWords 4 19 (encodeMotion m) = some m.words := by
  have hb : ∀ w ∈ m.words, w < 256 ^ 4 := by
    have e : (256 : Nat) ^ 4 = 2 ^ 32 := by norm_num
    intro w hw
    rw [e]
    exact hm w hw
  have := unpackWords_packWords 4 m.words hb
  rwa [words_length_motion] at this

/-- C1: wire codec round-trip — for every TelemetryRecord (9 double
fields) and every MotionRecord (19 float fields), unpacking the packed
fixed-layout byte string with the matching decode returns the original
record bit-for-bit. -/
theorem codec_roundtrip (r : TelemetryRecord) (m : MotionRecord)
    (hr : r.Valid) (hm : m.Valid) :
    decodeTelemetry (encodeTelemetry r) = some r ∧
    decodeMotion (encodeMotion m) = some m := by
  constructor
  · unfold decodeTelemetry
    rw [unpack_encodeTelemetry r hr]
    rfl
  · unfold decodeMotion
    rw [unpack_encodeMotion m hm]
    rfl

/-- A concrete telemetry record for witness evaluation. -/
def rSample : TelemetryRecord := ⟨2121, 7, 60000000, 3, 4, 5, 6, 7, 8⟩

/-- A concrete motion record for witness evaluation. -/
def mSample : MotionRecord :=
  ⟨1, 2, 3, 4, 5, 6, 7, 8, 9, 10, 11, 12, 13, 14, 15, 16, 17, 18, 19⟩

/-- Witness for C1 at concrete records. -/
theorem codec_roundtrip_witness :
    decodeTelemetry (encodeTelemetry rSample) = some rSample ∧
    decodeMotion (encodeMotion mSample) = some mSample :=
  codec_roundtrip rSample mSample (by decide) (by decide)

/-- C6: sequence monotonicity — the sender's counter starts at 0 and
each iteration packs the current counter then increments it by exactly
1, so the `cNO` fields of `n` consecutive sent records are
`0, 1, …, n-1`. -/
theorem sequence_monotonic (grpId : Nat) (env : Nat → TlEnv) (n : Nat) :
    (tlSenderRun grpId env 0 n).map TelemetryRecord.cNO = List.range n := by
  have h : ∀ c k, (tlSenderRun grpId env c k).map TelemetryRecord.cNO = List.range' c k := by
    intro c k
    induction k generalizing c with
    | zero => rfl
    | succ k ih => simp [tlSenderRun, mkTelemetry, List.range', ih]
  rw [h, List.range_eq_range']

/-- C8: fixed packet lengths — every encoded TelemetryRecord is exactly
72 bytes and every encoded MotionRecord exactly 76 bytes, and the sender
records the telemetry length in `tlr_socklen` (with `tlr_double = 9`)
for the receiver. -/
theorem fixed_packet_lengths :
    (∀ r : TelemetryRecord, (encodeTelemetry r).length = 72) ∧
    (∀ m : MotionRecord, (encodeMotion m).length = 76) ∧
    (∀ grpId cnt env s,
      (senderPublish grpId cnt env s).1.tlr_socklen = 72 ∧
      (senderPublish grpId cnt env s).1.tlr_double = 9 ∧
      (senderPublish grpId cnt env s).2 = encodeTelemetry (mkTelemetry grpId cnt env)) := by
  refine ⟨fun r => ?_, fun m => ?_, fun grpId cnt env s => ⟨?_, rfl, rfl⟩⟩
  · rw [encodeTelemetry, length_packWords, words_length_telemetry]
  · rw [encodeMotion, length_packWords, words_length_motion]
  · show (encodeTelemetry (mkTelemetry grpId cnt env)).length = 72
    rw [encodeTelemetry, length_packWords, words_length_telemetry]

/-- C9 counterexample: the send timestamp does not wrap at the minute
boundary — one minute into the hour it equals 6×10⁷ microseconds, so it
does reach the value corresponding to one full minute instead of
resetting. -/
theorem timestamp_minute_wrap_cex :
    b_total 1 0 0 = 60000000 ∧ ¬ b_total 1 0 0 < 60000000 := by
  exact ⟨rfl, by decide⟩

/-- C9 (amended): the send timestamp is
`minute*6e7 + second*1e6 + microsecond`, the microsecond count within
the current hour — it wraps every calendar hour and stays below
3.6×10⁹, not every minute. -/
theorem timestamp_hour_bound (m s u : Nat)
    (hm : m < 60) (hs : s < 60) (hu : u < 1000000) :
    b_total m s u < 3600000000 := by
  unfold b_total
  omega

/-- Witness for the amended C9 at the last microsecond of an hour. -/
theorem timestamp_hour_bound_witness : b_total 59 59 999999 < 3600000000 :=
  timestamp_hour_bound 59 59 999999 (by decide) (by decide) (by decide)

/-! ## Receiver claims -/

/-- The globals right after the local sender's first publish: the
receiver's expected length is recorded, nothing received yet. -/
def sReady : SharedState :=
  (senderPublish 2121 0 ⟨0, 0, 0, 0, 0, 0, 0⟩ initState).1

theorem sReady_socklen : sReady.tlr_socklen = 72 := by decide

theorem sReady_double : sReady.tlr_double = 9 := by decide

/-- C7 counterexample: a socket error whose errno (104, `ECONNRESET`) is
neither `EAGAIN` nor `EWOULDBLOCK` does not terminate the receive loop —
the `except socket.error` clause swallows it and the loop retries with
unchanged state, contradicting the claimed fatal propagation. -/
theorem socket_error_swallowed_cex :
    recvStep 2121 sReady (.sockError 104) = .next sReady ∧
    (104 : Nat) ≠ EAGAIN ∧ (104 : Nat) ≠ EWOULDBLOCK := by
  decide

/-- C7 (amended): every socket error — would-block or not — and every
timeout is caught by the receiver's `except` clauses and the loop simply
retries on the next iteration with unchanged state; no socket error
terminates the receive loop (only non-socket exceptions raised inside
the body escape it). -/
theorem socket_errors_swallowed (grpId : Nat) (s : SharedState) (errno : Nat) :
    recvStep grpId s (.sockError errno) = .next s ∧
    recvStep grpId s .timeout = .next s ∧
    recvStep grpId s .wouldBlock = .next s := by
  refine ⟨?_, ?_, ?_⟩ <;> · unfold recvStep; split <;> simp

/-- C10: receiver start-up gating — `tlr_socklen` starts at 0 and the
receive loop's body runs only when it is nonzero, so as long as the
local publisher has not sent (and in particular in every execution where
it never sends), any sequence of receive events leaves the globals
untouched: the registry stays empty and no proxy is spawned. -/
theorem receiver_startup_gating (grpId : Nat) (s : SharedState) (evs : List RecvEvent)
    (h : s.tlr_socklen = 0) :
    recvRun grpId s evs = .next s ∧
    initState.tlr_socklen = 0 ∧ initState.num_cli = 0 ∧
    initState.cli_vehicle = List.replicate 10 0 ∧ initState.spawns = 0 := by
  refine ⟨?_, rfl, rfl, rfl, rfl⟩
  induction evs with
  | nil => rfl
  | cons ev evs ih =>
    have hstep : recvStep grpId s ev = .next s := by
      unfold recvStep
      rw [if_pos h]
    simp [recvRun, hstep, ih]

/-- Witness for C10: from the initial globals, a datagram and a timeout
are both ignored. -/
theorem receiver_startup_gating_witness :
    recvRun 2121 initState [RecvEvent.datagram (List.replicate 72 1), RecvEvent.timeout]
      = .next initState ∧
    initState.tlr_socklen = 0 ∧ initState.num_cli = 0 ∧
    initState.cli_vehicle = List.replicate 10 0 ∧ initState.spawns = 0 :=
  receiver_startup_gating 2121 initState _ rfl

theorem recvStep_datagram (grpId : Nat) (s : SharedState) (bs : List Nat)
    (h : s.tlr_socklen ≠ 0) :
    recvStep grpId s (.datagram bs) = applyDatagram grpId s bs := by
  unfold recvStep
  rw [if_neg h]

/-- C5: self-filter — a telemetry datagram whose identifier equals the
local `GRP_ID` causes no registry resolve, no slot allocation, no spawn
and no transform update: the only change is the receiver's diagnostic
self-packet statistic. -/
theorem self_filter (grpId : Nat) (s : SharedState) (r : TelemetryRecord)
    (hsl : s.tlr_socklen = 72) (hd : s.tlr_double = 9)
    (hv : r.Valid) (hid : r.cID = grpId) :
    recvStep grpId s (.datagram (encodeTelemetry r)) =
      .next { s with selfCnt := s.selfCnt + 1 } := by
  have hlen : (encodeTelemetry r).length = 72 := by
    rw [encodeTelemetry, length_packWords, words_length_telemetry]
  rw [recvStep_datagram grpId s _ (by omega)]
  unfold applyDatagram
  rw [hsl, hd, List.take_of_length_le (by omega), unpack_encodeTelemetry r hv]
  simp [TelemetryRecord.words, hid]

/-- Witness for C5 at a concrete state and record. -/
theorem self_filter_witness :
    recvStep 2121 sReady (.datagram (encodeTelemetry rSample)) =
      .next { sReady with selfCnt := sReady.selfCnt + 1 } :=
  self_filter 2121 sReady rSample sReady_socklen sReady_double (by decide) rfl

theorem unpackWords_none (width n : Nat) (bs : List Nat) (h : bs.length ≠ width * n) :
    unpackWords width n bs = none := by
  cases hres : unpackWords width n bs with
  | none => rfl
  | some ws => exact absurd (unpackWords_length width n bs ws hres) h

/-- C3 counterexample: a 71-byte datagram (one byte short of the
expected 72) makes `struct.unpack` raise an uncaught `struct.error`
that escapes the receive loop, contradicting the claimed silent
discard. -/
theorem malformed_packet_cex :
    recvStep 2121 sReady (.datagram (List.replicate 71 0)) =
      .crash .structError sReady := by
  decide

/-- C3 (amended): a datagram shorter than the expected 72 bytes leaves
every global unchanged but raises an unhandled `struct.error` that
escapes (and therefore terminates) the receive loop, since the `except`
clauses only cover socket errors; a longer datagram is instead truncated
to 72 bytes by `recvfrom` and processed normally rather than discarded. -/
theorem short_datagram_crash (grpId : Nat) (s : SharedState) (bs : List Nat)
    (hsl : s.tlr_socklen = 72) (hd : s.tlr_double = 9) (hlen : bs.length < 72) :
    recvStep grpId s (.datagram bs) = .crash .structError s := by
  rw [recvStep_datagram grpId s _ (by omega)]
  unfold applyDatagram
  rw [hsl, hd, unpackWords_none 8 9 _ (by rw [List.length_take]; omega)]

/-- Witness for the amended C3: a 10-byte datagram crashes the loop. -/
theorem short_datagram_crash_witness :
    recvStep 2121 sReady (.datagram (List.replicate 10 3)) =
      .crash .structError sReady :=
  short_datagram_crash 2121 sReady _ sReady_socklen sReady_double (by decide)

/-- The exception (if any) escaping a receiver run. -/
def crashErr : StepResult → Option PyErr
  | .next _ => none
  | .crash e _ => some e

/-- `n` datagrams carrying `n` distinct non-local identifiers `1..n`. -/
def distinctIdEvents (n : Nat) : List RecvEvent :=
  (List.range n).map fun k => RecvEvent.datagram (encodeTelemetry ⟨k + 1, 0, 0, 0, 0, 0, 0, 0, 0⟩)

/-- C2 counterexample: feeding the receiver 11 distinct non-local
identifiers does not produce any typed `RegistryFull` error — the first
10 fill the table and the 11th makes `neworexi[num_cli] = cars.cID`
write past the end of the 10-element list, raising an unhandled
`IndexError` (a crash), which the claim rules out. -/
theorem registry_overflow_cex :
    crashErr (recvRun 2121 sReady (distinctIdEvents 11)) = some PyErr.indexError ∧
    crashErr (recvRun 2121 sReady (distinctIdEvents 10)) = none := by
  decide

/-- C2 (amended): when the 10-slot table is exhausted, the
(capacity+1)-th distinct non-local identifier makes the slot-allocation
step perform an out-of-bounds list write, raising an unhandled
`IndexError` that escapes and terminates the receive loop; the code
defines no `RegistryFull` error and has no bound check. -/
theorem registry_full_crash (grpId : Nat) (s : SharedState) (r : TelemetryRecord)
    (hsl : s.tlr_socklen = 72) (hd : s.tlr_double = 9) (hv : r.Valid)
    (hne : r.cID ≠ grpId)
    (hlen10 : s.neworexi.length = 10) (hfull : s.num_cli = 10)
    (hnotin : firstIdx s.neworexi s.num_cli r.cID = none) :
    recvStep grpId s (.datagram (encodeTelemetry r)) = .crash .indexError s := by
  have hlen : (encodeTelemetry r).length = 72 := by
    rw [encodeTelemetry, length_packWords, words_length_telemetry]
  rw [recvStep_datagram grpId s _ (by omega)]
  unfold applyDatagram
  rw [hsl, hd, List.take_of_length_le (by omega), unpack_encodeTelemetry r hv]
  simp only [TelemetryRecord.words]
  rw [if_neg hne]
  have hset : setAt s.neworexi s.num_cli r.cID = none := by
    unfold setAt
    rw [if_neg (by omega)]
  have hres : resolve s r.cID = .error .indexError := by
    unfold resolve
    rw [if_neg (by omega), hnotin, hset]
  rw [hres]

/-- The globals after the 10 distinct identifiers `1..10` filled the
table. -/
def sFull : SharedState :=
  match recvRun 2121 sReady (distinctIdEvents 10) with
  | .next s => s
  | .crash _ s => s

/-- Witness for the amended C2: from the full table, a fresh identifier
crashes the loop with `IndexError`. -/
theorem registry_full_crash_witness :
    recvStep 2121 sFull (.datagram (encodeTelemetry ⟨999, 0, 0, 0, 0, 0, 0, 0, 0⟩)) =
      .crash .indexError sFull :=
  registry_full_crash 2121 sFull ⟨999, 0, 0, 0, 0, 0, 0, 0, 0⟩
    (by decide) (by decide) (by decide) (by decide) (by decide) (by decide) (by decide)

/-! ## Peer slot stability (C4) -/

/-- Registry well-formedness: the `neworexi` array keeps its 10 slots,
at most 10 are used, and the identifiers registered in distinct used
slots are distinct (the identifier → slot map is a bijection onto the
used slots). -/
def Inv (s : SharedState) : Prop :=
  s.neworexi.length = 10 ∧ s.num_cli ≤ 10 ∧
  ∀ i, i < s.num_cli → ∀ j, j < s.num_cli → i ≠ j →
    s.neworexi.getD i 0 ≠ s.neworexi.getD j 0

instance (s : SharedState) : Decidable (Inv s) := by
  unfold Inv
  infer_instance

theorem getD_set_self {l : List Nat} {n a : Nat} (h : n < l.length) :
    (l.set n a).getD n 0 = a := by
  simp [List.getD_eq_getElem?_getD, List.getElem?_set_self h]

theorem getD_set_ne {l : List Nat} {n j a : Nat} (h : n ≠ j) :
    (l.set n a).getD j 0 = l.getD j 0 := by
  simp [List.getD_eq_getElem?_getD, List.getElem?_set_ne h]

theorem firstIdx_none_iff {ne : List Nat} {n cID : Nat} :
    firstIdx ne n cID = none ↔ ∀ j, j < n → ne.getD j 0 ≠ cID := by
  unfold firstIdx
  rw [List.find?_eq_none]
  constructor
  · intro h j hj
    simpa using h j (List.mem_range.mpr hj)
  · intro h x hx
    simpa using h x (List.mem_range.mp hx)

theorem firstIdx_last {ne : List Nat} {n cID : Nat} (hn : ne.getD n 0 = cID)
    (hprev : ∀ j, j < n → ne.getD j 0 ≠ cID) :
    firstIdx ne (n + 1) cID = some n := by
  unfold firstIdx
  rw [List.range_succ, List.find?_append]
  have h1 : (List.range n).find? (fun i => ne.getD i 0 == cID) = none := by
    rw [List.find?_eq_none]
    intro j hj
    simp only [List.mem_range] at hj
    simp only [beq_iff_eq]
    exact hprev j hj
  rw [h1, List.find?_cons_of_pos _ (by simp only [beq_iff_eq]; exact hn)]
  rfl

/-- Resolving an unregistered identifier with a free slot appends it at
index `num_cli` and reports it new. -/
theorem resolve_fresh (s : SharedState) (A : Nat)
    (hlen10 : s.neworexi.length = 10) (hnc : s.num_cli < 10)
    (hnotin : ∀ j, j < s.num_cli → s.neworexi.getD j 0 ≠ A) :
    resolve s A = .ok
      ({ s with neworexi := s.neworexi.set s.num_cli A, num_cli := s.num_cli + 1 },
       s.num_cli, true) := by
  have hset : setAt s.neworexi s.num_cli A = some (s.neworexi.set s.num_cli A) := by
    unfold setAt
    rw [if_pos (by omega)]
  unfold resolve
  by_cases h0 : s.num_cli = 0
  · rw [if_pos h0, hset]
  · rw [if_neg h0, firstIdx_none_iff.mpr hnotin, hset]

/-- A state whose slot `n` holds `A`, with `num_cli = n + 1` and no
earlier slot holding `A`, resolves `A` to slot `n` as existing. -/
theorem resolve_after_fresh (s1 : SharedState) (A n : Nat)
    (hnum : s1.num_cli = n + 1)
    (hget : s1.neworexi.getD n 0 = A)
    (hprev : ∀ j, j < n → s1.neworexi.getD j 0 ≠ A) :
    resolve s1 A = .ok (s1, n, false) := by
  unfold resolve
  rw [if_neg (by omega), hnum, firstIdx_last hget hprev]

/-- A fresh allocation preserves registry well-formedness. -/
theorem inv_after_fresh (s : SharedState) (A : Nat) (hInv : Inv s) (hnc : s.num_cli < 10)
    (hnotin : ∀ j, j < s.num_cli → s.neworexi.getD j 0 ≠ A) :
    Inv { s with neworexi := s.neworexi.set s.num_cli A, num_cli := s.num_cli + 1 } := by
  obtain ⟨hlen, hle, hinj⟩ := hInv
  refine ⟨?_, ?_, ?_⟩
  · show (s.neworexi.set s.num_cli A).length = 10
    rw [List.length_set]
    exact hlen
  · show s.num_cli + 1 ≤ 10
    omega
  · show ∀ i, i < s.num_cli + 1 → ∀ j, j < s.num_cli + 1 → i ≠ j →
      (s.neworexi.set s.num_cli A).getD i 0 ≠ (s.neworexi.set s.num_cli A).getD j 0
    intro i hi j hj hij
    by_cases hi' : i = s.num_cli
    · subst hi'
      have hj' : j < s.num_cli := by omega
      rw [getD_set_self (by omega), getD_set_ne (by omega)]
      exact (hnotin j hj').symm
    · by_cases hj' : j = s.num_cli
      · subst hj'
        have hi2 : i < s.num_cli := by omega
        rw [getD_set_self (by omega), getD_set_ne (by omega)]
        exact hnotin i hi2
      · rw [getD_set_ne (by omega), getD_set_ne (by omega)]
        exact hinj i (by omega) j (by omega) hij

/-- Processing a datagram whose identifier resolves to an existing slot
only pushes the transform to that slot's proxy. -/
theorem step_resolved_existing (grpId : Nat) (s : SharedState) (r : TelemetryRecord) (i : Nat)
    (hsl : s.tlr_socklen = 72) (hd : s.tlr_double = 9) (hv : r.Valid) (hne : r.cID ≠ grpId)
    (hres : resolve s r.cID = .ok (s, i, false)) :
    recvStep grpId s (.datagram (encodeTelemetry r)) =
      applyTransform s i [r.cPX, r.cPY, r.cPZ, r.cRX, r.cRY, r.cRZ] := by
  have hlen : (encodeTelemetry r).length = 72 := by
    rw [encodeTelemetry, length_packWords, words_length_telemetry]
  rw [recvStep_datagram grpId s _ (by omega)]
  unfold applyDatagram
  rw [hsl, hd, List.take_of_length_le (by omega), unpack_encodeTelemetry r hv]
  simp only [TelemetryRecord.words]
  rw [if_neg hne, hres]
  rfl

/-- A step that resolves to an existing slot performs no spawn: the
proxy array and the spawn count are untouched. -/
theorem step_after_registered (grpId : Nat) (s1 : SharedState) (r : TelemetryRecord)
    (i : Nat) (s2 : SharedState)
    (hstab : resolve s1 r.cID = .ok (s1, i, false))
    (hne : r.cID ≠ grpId) (hv : r.Valid)
    (hsl : s1.tlr_socklen = 72) (hd : s1.tlr_double = 9)
    (hstep : recvStep grpId s1 (.datagram (encodeTelemetry r)) = .next s2) :
    s2.cli_vehicle = s1.cli_vehicle ∧ s2.spawns = s1.spawns := by
  rw [step_resolved_existing grpId s1 r i hsl hd hv hne hstab] at hstep
  unfold applyTransform at hstep
  cases hset : setAt s1.lastTrans i (some [r.cPX, r.cPY, r.cPZ, r.cRX, r.cRY, r.cRZ]) with
  | none =>
    rw [hset] at hstep
    exact StepResult.noConfusion hstep
  | some lt =>
    rw [hset] at hstep
    have h2 := StepResult.next.inj hstep
    rw [← h2]
    exact ⟨rfl, rfl⟩

/-- C4: peer slot stability — from any well-formed registry, resolving
identifier `A` a second time returns the very same slot index with
`newspawn` false and unchanged state, the registry stays well-formed
(identifier → slot is a bijection on used slots), `newspawn` is true
only when `A` was not yet registered, and re-processing a full datagram
for `A` requests no further proxy spawn. -/
theorem peer_slot_stability (s s1 : SharedState) (A i : Nat) (b : Bool)
    (hInv : Inv s) (h1 : resolve s A = .ok (s1, i, b)) :
    resolve s1 A = .ok (s1, i, false) ∧
    Inv s1 ∧
    (b = false → s1 = s) ∧
    (b = true → ∀ j, j < s.num_cli → s.neworexi.getD j 0 ≠ A) ∧
    (∀ grpId r s2, (r : TelemetryRecord).cID = A → r.cID ≠ grpId → r.Valid →
      s1.tlr_socklen = 72 → s1.tlr_double = 9 →
      recvStep grpId s1 (.datagram (encodeTelemetry r)) = .next s2 →
      s2.cli_vehicle = s1.cli_vehicle ∧ s2.spawns = s1.spawns) := by
  obtain ⟨hlen, hle, hinj⟩ := hInv
  cases hf : firstIdx s.neworexi s.num_cli A with
  | some i0 =>
    have h0 : s.num_cli ≠ 0 := by
      intro h
      rw [h] at hf
      simp [firstIdx] at hf
    have hres : resolve s A = .ok (s, i0, false) := by
      unfold resolve
      rw [if_neg h0, hf]
    rw [hres, Except.ok.injEq, Prod.mk.injEq, Prod.mk.injEq] at h1
    obtain ⟨hs1, hi, hb⟩ := h1
    subst hs1
    subst hi
    subst hb
    refine ⟨hres, ⟨hlen, hle, hinj⟩, fun _ => rfl, fun hb => absurd hb (by simp), ?_⟩
    intro grpId r s2 hcid hne hv hsl hd hstep
    exact step_after_registered grpId s r i0 s2 (by rw [hcid]; exact hres) hne hv hsl hd hstep
  | none =>
    have hnotin := firstIdx_none_iff.mp hf
    have hnc : s.num_cli < 10 := by
      by_contra hge
      have h10 : s.num_cli = 10 := by omega
      have herr : resolve s A = .error .indexError := by
        unfold resolve
        rw [if_neg (by omega), hf]
        have hset : setAt s.neworexi s.num_cli A = none := by
          unfold setAt
          rw [if_neg (by omega)]
        rw [hset]
      rw [herr] at h1
      exact Except.noConfusion h1
    have hres := resolve_fresh s A hlen hnc hnotin
    rw [hres, Except.ok.injEq, Prod.mk.injEq, Prod.mk.injEq] at h1
    obtain ⟨hs1, hi, hb⟩ := h1
    subst hs1
    subst hi
    subst hb
    have hstab : resolve { s with neworexi := s.neworexi.set s.num_cli A, num_cli := s.num_cli + 1 } A = .ok ({ s with neworexi := s.neworexi.set s.num_cli A, num_cli := s.num_cli + 1 }, s.num_cli, false) :=
      resolve_after_fresh _ A s.num_cli rfl (getD_set_self (by omega))
        (fun j hj => by rw [getD_set_ne (by omega)]; exact hnotin j hj)
    refine ⟨hstab, inv_after_fresh s A ⟨hlen, hle, hinj⟩ hnc hnotin,
      fun hb => absurd hb (by simp), fun _ => hnotin, ?_⟩
    intro grpId r s2 hcid hne hv hsl hd hstep
    exact step_after_registered grpId _ r s.num_cli s2 (by rw [hcid]; exact hstab)
      hne hv hsl hd hstep

/-- The registry after identifier `5` was allocated slot 0 from the
ready state. -/
def s1w : SharedState :=
  { sReady with neworexi := sReady.neworexi.set 0 5, num_cli := 1 }

/-- Witness for C4: identifier `5` resolves to slot 0 again, as
existing, after its first allocation. -/
theorem peer_slot_stability_witness : resolve s1w 5 = .ok (s1w, 0, false) :=
  (peer_slot_stability sReady s1w 5 0 true (by decide) rfl).1

end PeerTelemetry
